import Mathlib

/-!
Shallow embedding of `src/app.py` (EV station placement dashboard).

The script loads a dataframe of charging stations, computes a weighted
recommendation score per row (lines 19-28), classifies the top quantile
as "Optimal" (lines 31-32), applies sidebar filters (lines 60-72),
selects a top-N table with `nlargest` (lines 220-225) and exports the
filtered frame as CSV (line 241).

Numeric columns are modelled as exact rationals.  pandas produces a
non-finite float (NaN or ±inf) when a normalisation maximum is zero or a
column is empty; such values are modelled as `none : Option ℚ`.
-/

namespace EVDash

/-- One row of `detailed_ev_charging_stations.csv`, with the columns the
script reads.  Categorical columns are strings, numeric columns exact
rationals. -/
structure Row where
  stationID : String
  address : String
  latitude : ℚ
  longitude : ℚ
  chargerType : String
  availability : String
  renewableEnergySource : String
  cost : ℚ
  usage : ℚ
  capacity : ℚ
  distanceToCity : ℚ
  stationOperator : String
deriving DecidableEq

/-- pandas `Series.max()` over a numeric column: `none` on an empty
series (pandas returns NaN there). -/
def colMax : List ℚ → Option ℚ
  | [] => none
  | a :: t => some (t.foldl max a)

/-- Normalisation denominator of line 19: `df["Usage Stats (avg users/day)"].max()`. -/
def usageMax (rs : List Row) : Option ℚ :=
  colMax (rs.map Row.usage)

/-- Normalisation denominator of line 20: `df["Distance to City (km)"].max()`. -/
def distanceMax (rs : List Row) : Option ℚ :=
  colMax (rs.map Row.distanceToCity)

/-- Line 19: `usage_score = df[...] / df[...].max()`.  `none` models the
non-finite float pandas produces when the maximum is zero (0/0 is NaN,
x/0 is ±inf) or the frame is empty. -/
def usage_score (rs : List Row) (r : Row) : Option ℚ :=
  match usageMax rs with
  | none => none
  | some m => if m = 0 then none else some (r.usage / m)

/-- Line 20: `distance_score = 1 - (df[...] / df[...].max())`. -/
def distance_score (rs : List Row) (r : Row) : Option ℚ :=
  match distanceMax rs with
  | none => none
  | some m => if m = 0 then none else some (1 - r.distanceToCity / m)

/-- Line 21: `renewable_score = df["Renewable Energy Source"].apply(lambda x: 1 if x == "Yes" else 0)`. -/
def renewable_score (r : Row) : ℚ :=
  if r.renewableEnergySource = "Yes" then 1 else 0

/-- Lines 24-28: `df["Recommendation Score"] = 0.5 * usage_score + 0.3 *
distance_score + 0.2 * renewable_score`.  A non-finite operand makes the
result non-finite. -/
def recommendationScore (rs : List Row) (r : Row) : Option ℚ :=
  match usage_score rs r, distance_score rs r with
  | some u, some d => some (0.5 * u + 0.3 * d + 0.2 * renewable_score r)
  | _, _ => none

/-- The `Recommendation Score` column of the scored frame. -/
def scoreColumn (rs : List Row) : List (Option ℚ) :=
  rs.map (recommendationScore rs)

/-- pandas `Series.quantile(0.75)` with its default linear interpolation:
sort ascending, take rank `r = 0.75 * (n - 1)`, and interpolate between
the entries at positions `⌊r⌋` and `⌊r⌋ + 1` (line 31). -/
def quantile075 (xs : List ℚ) : ℚ :=
  let s := xs.mergeSort (fun a b => a ≤ b)
  let r : ℚ := 0.75 * ((xs.length : ℚ) - 1)
  let k : ℕ := (⌊r⌋).toNat
  s.getD k 0 + (r - (k : ℚ)) * (s.getD (k + 1) (s.getD k 0) - s.getD k 0)

/-- Line 31: `threshold = df["Recommendation Score"].quantile(0.75)`;
pandas skips non-finite entries (`skipna`). -/
def threshold (rs : List Row) : ℚ :=
  quantile075 ((scoreColumn rs).filterMap id)

/-- Line 32, one cell: `(score >= threshold).astype(int)`.  A NaN score
compares false against the threshold in pandas, hence flag `0`. -/
def optimalFlag (t : ℚ) (s : Option ℚ) : ℕ :=
  match s with
  | none => 0
  | some q => if t ≤ q then 1 else 0

/-- Line 32 applied to a NaN-free score column `xs`:
`df["Optimal"] = (df["Recommendation Score"] >= threshold).astype(int)`. -/
def optimalCol (xs : List ℚ) : List ℕ :=
  xs.map (fun v => optimalFlag (quantile075 xs) (some v))

/-- A row of the frame after the scoring pass of lines 19-32: the input
row plus the two derived columns. -/
structure ScoredRow where
  base : Row
  recommendationScore : Option ℚ
  optimal : ℕ
deriving DecidableEq

/-- The scoring pass of lines 19-32 as a transformation of the row
collection: every row receives its score and its optimal flag, both
computed over the full collection. -/
def scoreTable (rs : List Row) : List ScoredRow :=
  rs.map (fun r => ⟨r, recommendationScore rs r, optimalFlag (threshold rs) (recommendationScore rs r)⟩)

section MaxLemmas

theorem foldl_max_init_le (l : List ℚ) : ∀ a b : ℚ, a ≤ b → a ≤ l.foldl max b := by
  induction l with
  | nil => intro a b h; simpa using h
  | cons x t ih =>
      intro a b h
      exact ih a (max b x) (le_trans h (le_max_left _ _))

theorem mem_le_foldl_max (l : List ℚ) : ∀ a : ℚ, ∀ x ∈ l, x ≤ l.foldl max a := by
  induction l with
  | nil => intro a x hx; cases hx
  | cons y t ih =>
      intro a x hx
      rcases List.mem_cons.mp hx with h | h
      · subst h
        exact foldl_max_init_le t x (max a x) (le_max_right _ _)
      · exact ih (max a y) x h

/-- Every element of a column is bounded by `colMax`. -/
theorem le_colMax {xs : List ℚ} {m : ℚ} (hm : colMax xs = some m) :
    ∀ x ∈ xs, x ≤ m := by
  cases xs with
  | nil => cases hm
  | cons a t =>
      intro x hx
      have hmval : m = t.foldl max a := by
        simpa [colMax] using hm.symm
      subst hmval
      rcases List.mem_cons.mp hx with h | h
      · subst h
        exact foldl_max_init_le t x x le_rfl
      · exact mem_le_foldl_max t a x h

/-- `colMax` of a constant nonempty column is that constant. -/
theorem colMax_const {xs : List ℚ} {d : ℚ} (hne : xs ≠ []) (h : ∀ x ∈ xs, x = d) :
    colMax xs = some d := by
  cases xs with
  | nil => exact absurd rfl hne
  | cons a t =>
      have ha : a = d := h a (List.mem_cons_self a t)
      subst ha
      have : ∀ b : ℚ, (∀ x ∈ t, x = a) → t.foldl max b = max b a ∨ t.foldl max b = b := by
        clear h hne
        induction t with
        | nil => intro b _; right; rfl
        | cons y s ih =>
            intro b hy
            have hya : y = a := hy y (List.mem_cons_self y s)
            subst hya
            rcases ih (max b y) (fun x hx => hy x (List.mem_cons_of_mem y hx)) with h1 | h1
            · left
              rw [List.foldl_cons, h1, max_assoc, max_self]
            · left
              rw [List.foldl_cons, h1]
      rcases this a (fun x hx => h x (List.mem_cons_of_mem a hx)) with h1 | h1 <;>
        simp [colMax, h1]

end MaxLemmas

/-- The global dataframe as the script's state: the loaded rows plus the
derived columns, which do not exist before the scoring section runs. -/
structure DFrame where
  rows : List Row
  recommendationScoreCol : Option (List (Option ℚ))
  optimalCol : Option (List ℕ)
deriving DecidableEq

/-- Line 12: `df = pd.read_csv(...)` — the freshly loaded frame has no
derived columns. -/
def loadFrame (rows : List Row) : DFrame :=
  ⟨rows, none, none⟩

/-- Lines 19-32 as a state transition on the shared global frame: the
script assigns the two derived columns to `df` in place. -/
def scoringStep (d : DFrame) : DFrame :=
  let scores := d.rows.map (recommendationScore d.rows)
  { d with
    recommendationScoreCol := some scores,
    optimalCol := some (scores.map (optimalFlag (quantile075 (scores.filterMap id)))) }

/-- Lines 60-72: `df_filtered = df.copy()` followed by one conditional
`isin` filter per sidebar multiselect; an empty selection (falsy list)
skips its filter. -/
def applyFilters (addressFilter chargerFilter availabilityFilter renewableFilter : List String)
    (t : List ScoredRow) : List ScoredRow :=
  let t1 := if addressFilter.isEmpty then t
            else t.filter (fun r => addressFilter.contains r.base.address)
  let t2 := if chargerFilter.isEmpty then t1
            else t1.filter (fun r => chargerFilter.contains r.base.chargerType)
  let t3 := if availabilityFilter.isEmpty then t2
            else t2.filter (fun r => availabilityFilter.contains r.base.availability)
  if renewableFilter.isEmpty then t3
  else t3.filter (fun r => renewableFilter.contains r.base.renewableEnergySource)

/-- The conjunction of the four membership predicates of lines 62-72: a
column with an empty selection imposes no restriction. -/
def filterPred (addressFilter chargerFilter availabilityFilter renewableFilter : List String)
    (r : ScoredRow) : Bool :=
  (addressFilter.isEmpty || addressFilter.contains r.base.address) &&
  (chargerFilter.isEmpty || chargerFilter.contains r.base.chargerType) &&
  (availabilityFilter.isEmpty || availabilityFilter.contains r.base.availability) &&
  (renewableFilter.isEmpty || renewableFilter.contains r.base.renewableEnergySource)

/-- Line 220: `top_n = max(1, int(len(df_filtered) * 0.25))`, with the
fraction kept as a parameter (the script instantiates it at `0.25`);
Python `int` truncates, which is `⌊·⌋` for the non-negative products the
script forms. -/
def top_n (n : ℕ) (fraction : ℚ) : ℕ :=
  max 1 (⌊(n : ℚ) * fraction⌋).toNat

/-- Sort key of `nlargest(_, "Recommendation Score")`: the score of an
index-tagged row (rows with a non-finite score are dropped beforehand,
so the default is never read). -/
def keyOf (p : ℕ × ScoredRow) : ℚ :=
  p.2.recommendationScore.getD 0

/-- pandas `nlargest` ordering with `keep='first'`: higher score first,
ties broken by original position. -/
def rankLE (p q : ℕ × ScoredRow) : Bool :=
  decide (keyOf q < keyOf p ∨ (keyOf p = keyOf q ∧ p.1 ≤ q.1))

/-- The rows carrying a finite score, tagged with their original
positions (pandas `nlargest` ignores NaN entries). -/
def definedRows (t : List ScoredRow) : List (ℕ × ScoredRow) :=
  (t.filter (fun x => x.recommendationScore.isSome)).enum

/-- The finite-score rows ordered as `nlargest` ranks them. -/
def rankedRows (t : List ScoredRow) : List (ℕ × ScoredRow) :=
  (definedRows t).mergeSort rankLE

/-- `df.nlargest(k, "Recommendation Score")` (line 222): the first `k`
rows in descending score order, ties kept in original order. -/
def nlargestRows (k : ℕ) (t : List ScoredRow) : List ScoredRow :=
  ((rankedRows t).take k).map Prod.snd

/-- Lines 220-225: `optimal_stations = df_filtered.nlargest(top_n,
"Recommendation Score")` with the top fraction as a parameter. -/
def optimal_stations (t : List ScoredRow) (fraction : ℚ) : List ScoredRow :=
  nlargestRows (top_n t.length fraction) t

/-- Line 241: `csv = df_filtered.to_csv(...)` — serialises every column
of every filtered row, the two derived columns included. -/
def csvExport (t : List ScoredRow) : List (Row × Option ℚ × ℕ) :=
  t.map (fun r => (r.base, r.recommendationScore, r.optimal))

/-- A row template used by the concrete instances below. -/
def baseRow : Row :=
  ⟨"", "", 0, 0, "", "", "No", 0, 0, 0, 0, ""⟩

/-- A station with the three fields the scorer reads. -/
def mkStation (u d : ℚ) (ren : String) : Row :=
  { baseRow with usage := u, distanceToCity := d, renewableEnergySource := ren }

/-- The worked example of the spec: usage `[10,20,30,40]`, distance
`[5,5,5,5]`, renewable `[Yes,No,Yes,No]`. -/
def exRows : List Row :=
  [mkStation 10 5 "Yes", mkStation 20 5 "No", mkStation 30 5 "Yes", mkStation 40 5 "No"]

/-- A record with its usage multiplied by a constant, the other columns
untouched. -/
def scaleRow (c : ℚ) (r : Row) : Row :=
  { r with usage := c * r.usage }

/-- A collection with every usage value multiplied by a constant. -/
def scaleUsage (c : ℚ) (rs : List Row) : List Row :=
  rs.map (scaleRow c)

/-- A station whose usage and distance are both zero. -/
def zeroRow : Row :=
  mkStation 0 0 "No"

/-- A collection containing a negative usage value. -/
def negRows : List Row :=
  [mkStation (-1) 5 "No", mkStation 2 5 "Yes"]

/-- A scored row with a given finite score (other fields immaterial for
the ranking mode). -/
def sampleScored (s : ℚ) : ScoredRow :=
  ⟨baseRow, some s, 0⟩

/-- Ten scored rows with pairwise distinct finite scores. -/
def ex10 : List ScoredRow :=
  [sampleScored 1, sampleScored 2, sampleScored 3, sampleScored 4, sampleScored 5,
   sampleScored 6, sampleScored 7, sampleScored 8, sampleScored 9, sampleScored 10]

/-- A single scored row. -/
def ex1 : List ScoredRow :=
  [sampleScored 1]

section SortHelpers

theorem sorted_mergeSort_ascRat (xs : List ℚ) :
    (xs.mergeSort (fun a b => a ≤ b)).Sorted (· ≤ ·) := by
  have h := @List.sorted_mergeSort ℚ (fun a b => a ≤ b)
    (fun a b c hab hbc => by simp at *; exact le_trans hab hbc)
    (fun a b => by simpa using le_total a b) xs
  exact h.imp (fun hab => of_decide_eq_true hab)

/-- The ascending sort of a rational list is its unique sorted permutation. -/
theorem mergeSort_ascRat_eq {xs s : List ℚ} (hperm : xs.Perm s)
    (hsorted : s.Sorted (· ≤ ·)) :
    xs.mergeSort (fun a b => a ≤ b) = s :=
  List.eq_of_perm_of_sorted ((List.mergeSort_perm xs _).trans hperm)
    (sorted_mergeSort_ascRat xs) hsorted

end SortHelpers

section ExampleFacts

theorem exRows_usageMax : usageMax exRows = some 40 := by
  norm_num [usageMax, colMax, exRows, mkStation, baseRow, max_def]

theorem exRows_distanceMax : distanceMax exRows = some 5 := by
  norm_num [distanceMax, colMax, exRows, mkStation, baseRow, max_def]

theorem exRows_scoreColumn :
    scoreColumn exRows = [some 0.325, some 0.25, some 0.575, some 0.5] := by
  norm_num [scoreColumn, exRows, recommendationScore, usage_score, distance_score,
    renewable_score, usageMax, distanceMax, colMax, mkStation, baseRow, max_def]
  all_goals decide

end ExampleFacts

/-- C1: whenever both normalisation maxima are nonzero, every record of
the collection is scored by `0.5 * (usage / usageMax) + 0.3 * (1 -
distanceToCity / distanceMax) + 0.2 * (1 if renewable else 0)`; the
witness below instantiates the spec's worked example and checks the
resulting column `[0.325, 0.25, 0.575, 0.5]`. -/
theorem C1_recommendation_formula (rs : List Row) (um dm : ℚ)
    (hu : usageMax rs = some um) (hu0 : um ≠ 0)
    (hd : distanceMax rs = some dm) (hd0 : dm ≠ 0)
    (r : Row) (hr : r ∈ rs) :
    recommendationScore rs r =
      some (0.5 * (r.usage / um) + 0.3 * (1 - r.distanceToCity / dm) +
        0.2 * (if r.renewableEnergySource = "Yes" then 1 else 0)) := by
  simp [recommendationScore, usage_score, distance_score, renewable_score, hu, hd, hu0, hd0]

/-- Witness for C1 at the spec's worked example. -/
theorem C1_recommendation_formula_witness :
    usageMax exRows = some 40 ∧ (40 : ℚ) ≠ 0 ∧
    distanceMax exRows = some 5 ∧ (5 : ℚ) ≠ 0 ∧
    mkStation 10 5 "Yes" ∈ exRows ∧
    recommendationScore exRows (mkStation 10 5 "Yes") =
      some (0.5 * ((mkStation 10 5 "Yes").usage / 40) +
        0.3 * (1 - (mkStation 10 5 "Yes").distanceToCity / 5) +
        0.2 * (if (mkStation 10 5 "Yes").renewableEnergySource = "Yes" then 1 else 0)) ∧
    scoreColumn exRows = [some 0.325, some 0.25, some 0.575, some 0.5] :=
  ⟨exRows_usageMax, by norm_num, exRows_distanceMax, by norm_num,
    by simp [exRows],
    C1_recommendation_formula exRows 40 5 exRows_usageMax (by norm_num)
      exRows_distanceMax (by norm_num) _ (by simp [exRows]),
    exRows_scoreColumn⟩

/-- C2: the classification threshold is the linear-interpolation 75th
percentile of the score column — on any ascending-sorted permutation
`s` of the scores it is the interpolation at rank `0.75 * (n - 1)` —
and a record is flagged optimal iff its score is at least the
threshold. -/
theorem C2_threshold_quantile (xs : List ℚ) (hne : xs ≠ []) (s : List ℚ)
    (hperm : s.Perm xs) (hs : s.Sorted (· ≤ ·)) :
    (quantile075 xs =
      s.getD (⌊(0.75 : ℚ) * ((xs.length : ℚ) - 1)⌋).toNat 0 +
        ((0.75 : ℚ) * ((xs.length : ℚ) - 1) - ((⌊(0.75 : ℚ) * ((xs.length : ℚ) - 1)⌋).toNat : ℚ)) *
          (s.getD ((⌊(0.75 : ℚ) * ((xs.length : ℚ) - 1)⌋).toNat + 1)
              (s.getD (⌊(0.75 : ℚ) * ((xs.length : ℚ) - 1)⌋).toNat 0) -
            s.getD (⌊(0.75 : ℚ) * ((xs.length : ℚ) - 1)⌋).toNat 0)) ∧
    ∀ i, i < xs.length →
      ((optimalCol xs).getD i 0 = 1 ↔ quantile075 xs ≤ xs.getD i 0) := by
  constructor
  · unfold quantile075
    rw [mergeSort_ascRat_eq hperm.symm hs]
  · intro i hi
    have hmap : (optimalCol xs).getD i 0 = optimalFlag (quantile075 xs) (some (xs.getD i 0)) := by
      have h1 : (optimalCol xs).getD i 0 = (optimalCol xs).get ⟨i, by simpa [optimalCol] using hi⟩ :=
        List.getD_eq_get _ _ _
      have h2 : xs.getD i 0 = xs.get ⟨i, hi⟩ := List.getD_eq_get _ _ _
      rw [h1, h2]
      simp [optimalCol]
    rw [hmap]
    by_cases h : quantile075 xs ≤ xs.getD i 0 <;> simp [optimalFlag, h]

/-- Witness for C2 on the spec's example score column: the interpolated
threshold is `0.51875` and exactly the third record is optimal. -/
theorem C2_threshold_quantile_witness :
    ([0.325, 0.25, 0.575, 0.5] : List ℚ) ≠ [] ∧
    ([0.25, 0.325, 0.5, 0.575] : List ℚ).Perm [0.325, 0.25, 0.575, 0.5] ∧
    ([0.25, 0.325, 0.5, 0.575] : List ℚ).Sorted (· ≤ ·) ∧
    quantile075 [0.325, 0.25, 0.575, 0.5] = 0.51875 ∧
    optimalCol [0.325, 0.25, 0.575, 0.5] = [0, 0, 1, 0] := by
  have hperm : ([0.25, 0.325, 0.5, 0.575] : List ℚ).Perm [0.325, 0.25, 0.575, 0.5] :=
    (List.Perm.swap 0.325 0.25 [0.5, 0.575]).trans
      (List.Perm.cons _ (List.Perm.cons _ (List.Perm.swap 0.575 0.5 [])))
  have hs : ([0.25, 0.325, 0.5, 0.575] : List ℚ).Sorted (· ≤ ·) := by
    norm_num [List.sorted_cons]
  have h := C2_threshold_quantile [0.325, 0.25, 0.575, 0.5] (by simp)
    [0.25, 0.325, 0.5, 0.575] hperm hs
  have hfloor : (⌊(0.75 : ℚ) * ((([0.325, 0.25, 0.575, 0.5] : List ℚ).length : ℚ) - 1)⌋).toNat = 2 := by
    have hf : (⌊(0.75 : ℚ) * ((([0.325, 0.25, 0.575, 0.5] : List ℚ).length : ℚ) - 1)⌋) = 2 := by
      norm_num
    rw [hf]
    rfl
  have hq : quantile075 [0.325, 0.25, 0.575, 0.5] = 0.51875 := by
    rw [h.1, hfloor]
    norm_num [List.getD]
  refine ⟨by simp, hperm, hs, hq, ?_⟩
  simp only [optimalCol, List.map_cons, List.map_nil, hq, optimalFlag]
  norm_num

/-- C4 counterexample: the all-zero collection has no negative input,
yet its score is the non-finite value pandas produces for `0 / 0`, so
it does not lie in `[0, 1]`. -/
theorem C4_counterexample :
    ([zeroRow] : List Row) ≠ [] ∧
    (∀ r ∈ [zeroRow], 0 ≤ r.usage ∧ 0 ≤ r.distanceToCity) ∧
    recommendationScore [zeroRow] zeroRow = none ∧
    ¬ ∃ q : ℚ, recommendationScore [zeroRow] zeroRow = some q ∧ 0 ≤ q ∧ q ≤ 1 := by
  have hnone : recommendationScore [zeroRow] zeroRow = none := by
    simp [recommendationScore, usage_score, usageMax, colMax, zeroRow, mkStation, baseRow]
  refine ⟨by simp, ?_, hnone, ?_⟩
  · intro r hr
    have h := List.mem_singleton.mp hr
    subst h
    simp [zeroRow, mkStation, baseRow]
  · rintro ⟨q, hq, -, -⟩
    rw [hnone] at hq
    cases hq

/-- C4 (amended): for a non-empty collection with no negative usage or
distance and with a nonzero usage maximum and a nonzero distance
maximum, every recommendation score is finite and lies in `[0, 1]`. -/
theorem C4_score_range (rs : List Row) (um dm : ℚ)
    (hu : usageMax rs = some um) (hu0 : 0 < um)
    (hd : distanceMax rs = some dm) (hd0 : 0 < dm)
    (hnn : ∀ r ∈ rs, 0 ≤ r.usage ∧ 0 ≤ r.distanceToCity) :
    ∀ r ∈ rs, ∃ q, recommendationScore rs r = some q ∧ 0 ≤ q ∧ q ≤ 1 := by
  intro r hr
  have husage : r.usage ≤ um :=
    le_colMax hu _ (List.mem_map_of_mem Row.usage hr)
  have hdist : r.distanceToCity ≤ dm :=
    le_colMax hd _ (List.mem_map_of_mem Row.distanceToCity hr)
  have hu1 : 0 ≤ r.usage / um := div_nonneg (hnn r hr).1 hu0.le
  have hu2 : r.usage / um ≤ 1 := (div_le_one hu0).mpr husage
  have hd1 : 0 ≤ r.distanceToCity / dm := div_nonneg (hnn r hr).2 hd0.le
  have hd2 : r.distanceToCity / dm ≤ 1 := (div_le_one hd0).mpr hdist
  have hr1 : 0 ≤ renewable_score r := by
    unfold renewable_score
    split <;> norm_num
  have hr2 : renewable_score r ≤ 1 := by
    unfold renewable_score
    split <;> norm_num
  refine ⟨0.5 * (r.usage / um) + 0.3 * (1 - r.distanceToCity / dm) + 0.2 * renewable_score r,
    ?_, by linarith, by linarith⟩
  simp [recommendationScore, usage_score, distance_score, hu, hd, hu0.ne', hd0.ne']

/-- Witness for C4 (amended) on the spec's worked example. -/
theorem C4_score_range_witness :
    usageMax exRows = some 40 ∧ (0 : ℚ) < 40 ∧
    distanceMax exRows = some 5 ∧ (0 : ℚ) < 5 ∧
    (∀ r ∈ exRows, 0 ≤ r.usage ∧ 0 ≤ r.distanceToCity) ∧
    (∃ q, recommendationScore exRows (mkStation 10 5 "Yes") = some q ∧ 0 ≤ q ∧ q ≤ 1) := by
  have hnn : ∀ r ∈ exRows, 0 ≤ r.usage ∧ 0 ≤ r.distanceToCity := by
    intro r hr
    simp [exRows] at hr
    rcases hr with rfl | rfl | rfl | rfl <;> norm_num [mkStation, baseRow]
  exact ⟨exRows_usageMax, by norm_num, exRows_distanceMax, by norm_num, hnn,
    C4_score_range exRows 40 5 exRows_usageMax (by norm_num) exRows_distanceMax (by norm_num)
      hnn (mkStation 10 5 "Yes") (by simp [exRows])⟩

theorem foldl_max_map_mul (c : ℚ) (hc : 0 ≤ c) (l : List ℚ) :
    ∀ a : ℚ, (l.map (fun x => c * x)).foldl max (c * a) = c * l.foldl max a := by
  induction l with
  | nil => intro a; simp
  | cons x t ih =>
      intro a
      simp only [List.map_cons, List.foldl_cons]
      rw [← mul_max_of_nonneg _ _ hc, ih]

/-- Scaling a column by a non-negative constant scales its maximum. -/
theorem colMax_map_mul (c : ℚ) (hc : 0 ≤ c) (xs : List ℚ) :
    colMax (xs.map (fun x => c * x)) = (colMax xs).map (fun x => c * x) := by
  cases xs with
  | nil => simp [colMax]
  | cons a t => simp [colMax, foldl_max_map_mul c hc t a]

theorem usageMax_scaleUsage (c : ℚ) (hc : 0 ≤ c) (rs : List Row) :
    usageMax (scaleUsage c rs) = (usageMax rs).map (fun x => c * x) := by
  have h : (scaleUsage c rs).map Row.usage = (rs.map Row.usage).map (fun x => c * x) := by
    simp [scaleUsage, scaleRow, List.map_map, Function.comp]
  rw [usageMax, h, colMax_map_mul c hc, usageMax]

theorem distanceMax_scaleUsage (c : ℚ) (rs : List Row) :
    distanceMax (scaleUsage c rs) = distanceMax rs := by
  have h : (scaleUsage c rs).map Row.distanceToCity = rs.map Row.distanceToCity := by
    simp [scaleUsage, scaleRow, List.map_map, Function.comp]
  rw [distanceMax, h, distanceMax]

theorem usage_score_scaleUsage (rs : List Row) (c : ℚ) (hc : 0 < c) (r : Row) :
    usage_score (scaleUsage c rs) (scaleRow c r) = usage_score rs r := by
  unfold usage_score
  rw [usageMax_scaleUsage c hc.le]
  cases hm : usageMax rs with
  | none => simp
  | some m =>
      by_cases hm0 : m = 0
      · simp [hm0]
      · have hcm : c * m ≠ 0 := mul_ne_zero hc.ne' hm0
        simp [hcm, hm0, scaleRow, mul_div_mul_left _ _ hc.ne']

theorem recommendationScore_scaleUsage (rs : List Row) (c : ℚ) (hc : 0 < c) (r : Row) :
    recommendationScore (scaleUsage c rs) (scaleRow c r) = recommendationScore rs r := by
  unfold recommendationScore
  rw [usage_score_scaleUsage rs c hc r]
  have hd : distance_score (scaleUsage c rs) (scaleRow c r) = distance_score rs r := by
    unfold distance_score
    rw [distanceMax_scaleUsage c rs]
    simp [scaleRow]
  have hren : renewable_score (scaleRow c r) = renewable_score r := by
    simp [renewable_score, scaleRow]
  rw [hd, hren]

/-- C5: multiplying every usage value by a positive constant changes no
usage score and no recommendation score. -/
theorem C5_usage_scaling (rs : List Row) (c : ℚ) (hc : 0 < c) (r : Row) :
    usage_score (scaleUsage c rs) (scaleRow c r) = usage_score rs r ∧
    recommendationScore (scaleUsage c rs) (scaleRow c r) = recommendationScore rs r ∧
    scoreColumn (scaleUsage c rs) = scoreColumn rs := by
  refine ⟨usage_score_scaleUsage rs c hc r, recommendationScore_scaleUsage rs c hc r, ?_⟩
  unfold scoreColumn
  calc (scaleUsage c rs).map (recommendationScore (scaleUsage c rs))
      = rs.map (fun x => recommendationScore (scaleUsage c rs) (scaleRow c x)) := by
        simp [scaleUsage, List.map_map, Function.comp]
    _ = rs.map (recommendationScore rs) := by
        apply List.map_congr_left
        intro x _
        exact recommendationScore_scaleUsage rs c hc x

/-- Witness for C5 at the worked example with constant 2. -/
theorem C5_usage_scaling_witness :
    (0 : ℚ) < 2 ∧
    usage_score (scaleUsage 2 exRows) (scaleRow 2 (mkStation 10 5 "Yes")) =
      usage_score exRows (mkStation 10 5 "Yes") ∧
    scoreColumn (scaleUsage 2 exRows) = scoreColumn exRows :=
  ⟨by norm_num, (C5_usage_scaling exRows 2 (by norm_num) (mkStation 10 5 "Yes")).1,
    (C5_usage_scaling exRows 2 (by norm_num) (mkStation 10 5 "Yes")).2.2⟩

/-- C6: when every record has the same nonzero distance, every distance
score is exactly 0 (the ratio to the maximum is 1 and `1 - 1 = 0`),
not 1. -/
theorem C6_constant_distance (rs : List Row) (d : ℚ) (hne : rs ≠ []) (hd : d ≠ 0)
    (hall : ∀ r ∈ rs, r.distanceToCity = d) :
    ∀ r ∈ rs, distance_score rs r = some 0 := by
  have hmax : distanceMax rs = some d := by
    apply colMax_const
    · simp [hne]
    · intro x hx
      obtain ⟨r, hr, rfl⟩ := List.mem_map.mp hx
      exact hall r hr
  intro r hr
  simp [distance_score, hmax, hd, hall r hr, div_self hd]

/-- Witness for C6 at the worked example, whose distances are all 5. -/
theorem C6_constant_distance_witness :
    exRows ≠ [] ∧ (5 : ℚ) ≠ 0 ∧ (∀ r ∈ exRows, r.distanceToCity = 5) ∧
    distance_score exRows (mkStation 10 5 "Yes") = some 0 := by
  have hall : ∀ r ∈ exRows, r.distanceToCity = 5 := by
    intro r hr
    simp [exRows] at hr
    rcases hr with rfl | rfl | rfl | rfl <;> rfl
  exact ⟨by simp [exRows], by norm_num, hall,
    C6_constant_distance exRows 5 (by simp [exRows]) (by norm_num) hall
      (mkStation 10 5 "Yes") (by simp [exRows])⟩

theorem condFilter_eq (sel : List String) (f : ScoredRow → String) (t : List ScoredRow) :
    (if sel.isEmpty then t else t.filter (fun r => sel.contains (f r))) =
      t.filter (fun r => sel.isEmpty || sel.contains (f r)) := by
  cases sel with
  | nil => simp
  | cons x xs => simp

/-- The four sequential conditional filters of lines 60-72 coincide with
one filter by the conjunction of the four membership predicates. -/
theorem applyFilters_eq_filter (a c v n : List String) (t : List ScoredRow) :
    applyFilters a c v n t = t.filter (filterPred a c v n) := by
  unfold applyFilters
  simp only [condFilter_eq]
  rw [List.filter_filter, List.filter_filter, List.filter_filter]
  apply List.filter_congr
  intro r hr
  unfold filterPred
  cases h1 : (a.isEmpty || a.contains r.base.address) <;>
    cases h2 : (c.isEmpty || c.contains r.base.chargerType) <;>
      cases h3 : (v.isEmpty || v.contains r.base.availability) <;>
        cases h4 : (n.isEmpty || n.contains r.base.renewableEnergySource) <;>
          simp [h1, h2, h3, h4]

theorem emptyOr_contains_iff (sel : List String) (x : String) :
    (sel.isEmpty || sel.contains x) = true ↔ (sel ≠ [] → x ∈ sel) := by
  cases sel with
  | nil => simp
  | cons y ys => simp

/-- C7: the filtered collection is exactly the input rows satisfying the
conjunction of the four membership predicates, where a column with an
empty selection imposes no restriction; with all selections empty the
filtered collection is the full input. -/
theorem C7_filter_semantics (a c v n : List String) (t : List ScoredRow) :
    applyFilters a c v n t = t.filter (filterPred a c v n) ∧
    (∀ r, r ∈ applyFilters a c v n t ↔
      r ∈ t ∧ (a ≠ [] → r.base.address ∈ a) ∧ (c ≠ [] → r.base.chargerType ∈ c) ∧
        (v ≠ [] → r.base.availability ∈ v) ∧ (n ≠ [] → r.base.renewableEnergySource ∈ n)) ∧
    applyFilters [] [] [] [] t = t := by
  refine ⟨applyFilters_eq_filter a c v n t, ?_, ?_⟩
  · intro r
    rw [applyFilters_eq_filter]
    rw [List.mem_filter]
    unfold filterPred
    simp only [Bool.and_eq_true, emptyOr_contains_iff]
    tauto
  · rw [applyFilters_eq_filter]
    have : ∀ r ∈ t, filterPred [] [] [] [] r = true := by
      intro r _
      rfl
    simp [List.filter_congr this]

/-- C8 counterexample: a collection containing a negative usage value is
scored without any failure: the scoring pass returns a complete scored
row for every input row. -/
theorem C8_counterexample :
    negRows ≠ [] ∧ (∃ r ∈ negRows, r.usage < 0) ∧
    (scoreTable negRows).length = 2 ∧
    (scoreTable negRows).map ScoredRow.recommendationScore = [some (-0.25), some 0.7] := by
  refine ⟨by simp [negRows], ⟨mkStation (-1) 5 "No", by simp [negRows],
    by norm_num [mkStation, baseRow]⟩, by simp [scoreTable, negRows], ?_⟩
  have hmap : (scoreTable negRows).map ScoredRow.recommendationScore =
      negRows.map (recommendationScore negRows) := by
    simp [scoreTable, List.map_map]
  rw [hmap]
  norm_num [negRows, recommendationScore, usage_score, distance_score, renewable_score,
    usageMax, distanceMax, colMax, mkStation, baseRow, max_def]
  all_goals decide

/-- C8 (amended): the scoring pass performs no input validation: it is
total, returns one scored row per input row with all input fields kept,
and maps the empty collection to the empty result instead of failing. -/
theorem C8_no_validation (rs : List Row) :
    (scoreTable rs).length = rs.length ∧
    (scoreTable rs).map ScoredRow.base = rs ∧
    scoreTable ([] : List Row) = [] := by
  refine ⟨by simp [scoreTable], ?_, by simp [scoreTable]⟩
  rw [scoreTable, List.map_map]
  exact List.map_id rs

/-- C9 counterexample: the scoring section does mutate the shared global
frame in place — after lines 24-32 the frame differs from the loaded
one by the two new derived columns. -/
theorem C9_counterexample :
    scoringStep (loadFrame exRows) ≠ loadFrame exRows := by
  intro h
  have h2 := congrArg DFrame.recommendationScoreCol h
  simp [scoringStep, loadFrame] at h2

/-- C9 (amended): the scoring step only adds the two derived columns:
the row collection — hence every pre-existing field of every record —
is unchanged, and the added score column is a pure function of the
input rows. -/
theorem C9_scoring_preserves_rows (d : DFrame) :
    (scoringStep d).rows = d.rows ∧
    (scoringStep d).recommendationScoreCol = some (d.rows.map (recommendationScore d.rows)) :=
  ⟨rfl, rfl⟩

/-- C10: filtering never rescores — every row surviving the filters
carries exactly the score and optimal flag computed in the single
scoring pass over the full dataset, and the CSV export serialises those
same values unchanged. -/
theorem C10_filter_preserves_scores (rows : List Row) (a c v n : List String) :
    (∀ x ∈ applyFilters a c v n (scoreTable rows),
        x ∈ scoreTable rows ∧
        ∃ r ∈ rows, x.base = r ∧ x.recommendationScore = recommendationScore rows r ∧
          x.optimal = optimalFlag (threshold rows) (recommendationScore rows r)) ∧
    csvExport (applyFilters a c v n (scoreTable rows)) =
      (applyFilters a c v n (scoreTable rows)).map (fun x => (x.base, x.recommendationScore, x.optimal)) := by
  refine ⟨?_, rfl⟩
  intro x hx
  rw [applyFilters_eq_filter] at hx
  have hmem : x ∈ scoreTable rows := List.mem_of_mem_filter hx
  refine ⟨hmem, ?_⟩
  obtain ⟨r, hr, rfl⟩ := List.mem_map.mp hmem
  exact ⟨r, hr, rfl, rfl, rfl⟩

section RankLemmas

theorem rankLE_trans (p q s : ℕ × ScoredRow)
    (hpq : rankLE p q = true) (hqs : rankLE q s = true) : rankLE p s = true := by
  simp only [rankLE, decide_eq_true_eq] at *
  rcases hpq with h | ⟨h1, h2⟩ <;> rcases hqs with g | ⟨g1, g2⟩
  · exact Or.inl (lt_trans g h)
  · exact Or.inl (by rw [← g1]; exact h)
  · exact Or.inl (by rw [h1]; exact g)
  · exact Or.inr ⟨h1.trans g1, le_trans h2 g2⟩

theorem rankLE_total (p q : ℕ × ScoredRow) : (rankLE p q || rankLE q p) = true := by
  simp only [rankLE, Bool.or_eq_true, decide_eq_true_eq]
  rcases lt_trichotomy (keyOf p) (keyOf q) with h | h | h
  · exact Or.inr (Or.inl h)
  · rcases Nat.le_total p.1 q.1 with hn | hn
    · exact Or.inl (Or.inr ⟨h, hn⟩)
    · exact Or.inr (Or.inr ⟨h.symm, hn⟩)
  · exact Or.inl (Or.inl h)

theorem rankLE_imp {p q : ℕ × ScoredRow} (h : rankLE p q = true) :
    keyOf q ≤ keyOf p ∧ (keyOf p = keyOf q → p.1 ≤ q.1) := by
  simp only [rankLE, decide_eq_true_eq] at h
  rcases h with h | ⟨h1, h2⟩
  · exact ⟨le_of_lt h, fun he => absurd he (ne_of_gt h)⟩
  · exact ⟨le_of_eq h1.symm, fun _ => h2⟩

theorem rankedRows_sorted (t : List ScoredRow) :
    List.Pairwise (fun a b => rankLE a b = true) (rankedRows t) :=
  List.sorted_mergeSort rankLE_trans rankLE_total (definedRows t)

/-- When every score is finite, `nlargest` ranks the whole collection:
the ranked list is a permutation of the position-tagged input. -/
theorem rankedRows_perm (t : List ScoredRow)
    (hdef : ∀ x ∈ t, x.recommendationScore.isSome = true) :
    (rankedRows t).Perm t.enum := by
  have h := List.mergeSort_perm (definedRows t) rankLE
  rw [rankedRows]
  rw [definedRows, List.filter_eq_self.mpr hdef] at h ⊢
  exact h

theorem optimal_stations_length (t : List ScoredRow) (f : ℚ)
    (hdef : ∀ x ∈ t, x.recommendationScore.isSome = true) :
    (optimal_stations t f).length = min (top_n t.length f) t.length := by
  unfold optimal_stations nlargestRows
  rw [List.length_map, List.length_take]
  congr 1
  rw [rankedRows, List.length_mergeSort, definedRows, List.filter_eq_self.mpr hdef,
    List.enum_length]

theorem ex10_defined : ∀ x ∈ ex10, x.recommendationScore.isSome = true := by
  intro x hx
  simp [ex10, sampleScored] at hx
  rcases hx with rfl | rfl | rfl | rfl | rfl | rfl | rfl | rfl | rfl | rfl <;> rfl

end RankLemmas

/-- C3 counterexample: with 10 records and fraction 0.25 the top-N mode
returns `max(1, int(10 * 0.25)) = max(1, ⌊2.5⌋) = 2` rows, not 3. -/
theorem C3_counterexample :
    (optimal_stations ex10 (0.25 : ℚ)).length = 2 ∧
    ¬ (optimal_stations ex10 (0.25 : ℚ)).length = 3 := by
  have hlen10 : ex10.length = 10 := by simp [ex10]
  have hfl : (⌊(10 : ℚ) * 0.25⌋) = 2 := by norm_num
  have htn : top_n ex10.length (0.25 : ℚ) = 2 := by
    rw [top_n, hlen10]
    norm_num [hfl]
    rfl
  have h := optimal_stations_length ex10 (0.25 : ℚ) ex10_defined
  rw [htn, hlen10] at h
  simp at h
  exact ⟨h, by omega⟩

/-- C3 (amended): for a non-empty collection of `n` finite-score records
and a fraction `0 ≤ f ≤ 1`, the top-N mode returns exactly
`max(1, ⌊n * f⌋)` records — `2` when `n = 10, f = 0.25` — namely a
prefix of the descending stable ranking: scores are non-increasing with
ties in original input order, and every selected score is at least
every rejected score. -/
theorem C3_topN (t : List ScoredRow) (f : ℚ) (hne : t ≠ [])
    (hdef : ∀ x ∈ t, x.recommendationScore.isSome = true)
    (hf0 : 0 ≤ f) (hf1 : f ≤ 1) :
    (optimal_stations t f).length = max 1 (⌊(t.length : ℚ) * f⌋).toNat ∧
    optimal_stations t f = ((rankedRows t).take (top_n t.length f)).map Prod.snd ∧
    List.Pairwise (fun p q => keyOf q ≤ keyOf p ∧ (keyOf p = keyOf q → p.1 ≤ q.1))
      ((rankedRows t).take (top_n t.length f)) ∧
    ∃ rest, (((rankedRows t).take (top_n t.length f)) ++ rest).Perm t.enum ∧
      ∀ b ∈ rest, ∀ p ∈ (rankedRows t).take (top_n t.length f), keyOf b ≤ keyOf p := by
  have hkn : top_n t.length f ≤ t.length := by
    have h1 : (⌊(t.length : ℚ) * f⌋) ≤ ((t.length : ℕ) : ℤ) := by
      calc (⌊(t.length : ℚ) * f⌋) ≤ ⌊((t.length : ℕ) : ℚ)⌋ :=
            Int.floor_le_floor (mul_le_of_le_one_right (by positivity) hf1)
        _ = ((t.length : ℕ) : ℤ) := Int.floor_natCast _
    have h2 : (⌊(t.length : ℚ) * f⌋).toNat ≤ t.length := Int.toNat_le.mpr h1
    have h3 : 1 ≤ t.length := List.length_pos.mpr hne
    rw [top_n]
    omega
  refine ⟨?_, rfl, ?_, ?_⟩
  · rw [optimal_stations_length t f hdef, min_eq_left hkn, top_n]
  · exact (List.Pairwise.sublist (List.take_sublist _ _) (rankedRows_sorted t)).imp rankLE_imp
  · refine ⟨(rankedRows t).drop (top_n t.length f), ?_, ?_⟩
    · rw [List.take_append_drop]
      exact rankedRows_perm t hdef
    · have hs := rankedRows_sorted t
      rw [← List.take_append_drop (top_n t.length f) (rankedRows t)] at hs
      rcases List.pairwise_append.mp hs with ⟨-, -, hdom⟩
      exact fun b hb p hp => (rankLE_imp (hdom p hp b hb)).1

/-- Witness for C3 (amended): 2 rows out of 10 at fraction 0.25, and 1
row out of 1. -/
theorem C3_topN_witness :
    ex10 ≠ [] ∧ (∀ x ∈ ex10, x.recommendationScore.isSome = true) ∧
    (0 : ℚ) ≤ 0.25 ∧ (0.25 : ℚ) ≤ 1 ∧
    (optimal_stations ex10 (0.25 : ℚ)).length = 2 ∧
    (optimal_stations ex1 (0.25 : ℚ)).length = 1 := by
  have hdef1 : ∀ x ∈ ex1, x.recommendationScore.isSome = true := by
    intro x hx
    simp [ex1, sampleScored] at hx
    subst hx
    rfl
  have h10 := (C3_topN ex10 (0.25 : ℚ) (by simp [ex10]) ex10_defined
    (by norm_num) (by norm_num)).1
  have h1 := (C3_topN ex1 (0.25 : ℚ) (by simp [ex1]) hdef1 (by norm_num) (by norm_num)).1
  have hlen10 : ex10.length = 10 := by simp [ex10]
  have hlen1 : ex1.length = 1 := by simp [ex1]
  rw [hlen10] at h10
  rw [hlen1] at h1
  have hfl10 : (⌊(10 : ℚ) * 0.25⌋) = 2 := by norm_num
  have hfl1 : (⌊(1 : ℚ) * 0.25⌋) = 0 := by norm_num
  refine ⟨by simp [ex10], ex10_defined, by norm_num, by norm_num, ?_, ?_⟩
  · rw [h10]
    norm_num [hfl10]
    rfl
  · rw [h1]
    norm_num [hfl1]

end EVDash
